import Mathlib

/-!
Verification of the trivial-argument-parser library: a shallow embedding of
its data model (owned argument descriptors, generic parsable arguments, the
registry) and of the tokenization/dispatch loop, together with theorems
checking the specification's claims against the embedded code.

The Rust token cursor (`std::slice::Iter<String>`, sometimes wrapped in
`Peekable`) is modelled as a `List String` threaded through each operation;
`&mut self` methods return the updated value alongside their `Result`.
-/

namespace Tap

/-- `ArgType` (src/lib.rs): the arity kind of a legacy (owned) argument. -/
inductive ArgType where
  | Flag
  | Value
  | ValueList
  deriving DecidableEq

/-- `ArgResult` (src/lib.rs): data produced by parsing for an owned argument. -/
inductive ArgResult where
  | Flag
  | Value (value : String)
  | ValueList (values : List String)
  deriving DecidableEq

/-- `Argument` (src/lib.rs): an owned (legacy) argument descriptor. -/
structure Argument where
  short : Option Char
  long : Option String
  arg_type : ArgType
  arg_result : Option ArgResult
  deriving DecidableEq

/-- `Argument::new` (src/lib.rs lines 53-78): at least one of the two names
must be supplied; the result slot starts absent. -/
def Argument.new (short : Option Char) (long : Option String) (arg_type : ArgType) :
    Except String Argument :=
  match short, long with
  | none, none =>
      .error "At least one name of argument must be specified (short or long or both)"
  | _, _ => .ok { short := short, long := long, arg_type := arg_type, arg_result := none }

/-- `Argument::get_value` (src/lib.rs lines 101-115). -/
def Argument.get_value (a : Argument) : Except String String :=
  match a.arg_type with
  | .Value =>
    match a.arg_result with
    | some r =>
      match r with
      | .Value v => .ok v
      | _ => .error "Wrong type of result. Something really bad has happened"
    | none => .error "No value assigned to result"
  | _ => .error "This argument is not an value"

/-- `Argument::get_values` (src/lib.rs lines 133-147). -/
def Argument.get_values (a : Argument) : Except String (List String) :=
  match a.arg_type with
  | .ValueList =>
    match a.arg_result with
    | some r =>
      match r with
      | .ValueList vs => .ok vs
      | _ => .error "Wrong type of result. Something really bad happened"
    | none => .error "No result specified"
  | _ => .error "This argument is not an value list"

/-- `Argument::get_flag` (src/lib.rs lines 164-174): for a Flag argument the
answer is presence of the result; never an error in the unset case. -/
def Argument.get_flag (a : Argument) : Except String Bool :=
  match a.arg_type with
  | .Flag => .ok a.arg_result.isSome
  | _ => .error "Argument is not an flag type"

/-- `Argument::add_value` (src/lib.rs lines 176-220). The Rust method mutates
`self` and advances the shared cursor; the embedding returns the call's
`Result` together with the updated argument and the remaining cursor. The
`expect("as mut")` panic in the source is unreachable (the result slot was
filled just above when absent); the dead branch is mapped to an error
carrying the panic message. -/
def Argument.add_value (a : Argument) (input : List String) :
    Except String Unit × Argument × List String :=
  match a.arg_type with
  | .Flag =>
    match a.arg_result with
    | some _ => (.error "Flag already set", a, input)
    | none => (.ok (), { a with arg_result := some .Flag }, input)
  | .Value =>
    match a.arg_result with
    | some _ => (.error "Value already assigned", a, input)
    | none =>
      match input with
      | word :: rest => (.ok (), { a with arg_result := some (.Value word) }, rest)
      | [] => (.error "Expected value", a, [])
  | .ValueList =>
    let a1 := if a.arg_result.isNone then { a with arg_result := some (.ValueList []) } else a
    match input with
    | word :: rest =>
      match a1.arg_result with
      | some (.ValueList values) =>
          (.ok (), { a1 with arg_result := some (.ValueList (values ++ [word])) }, rest)
      | some _ => (.error "WTF", a1, rest)
      | none => (.error "as mut", a1, rest)
    | [] => (.error "Expected value", a1, [])

/-- `ArgumentIdentification` (src/argument/mod.rs). -/
inductive ArgumentIdentification where
  | Short (c : Char)
  | Long (s : String)
  | Both (c : Char) (s : String)
  deriving DecidableEq

/-- `ArgumentIdentification::is_by_short` (src/argument/mod.rs lines 17-25). -/
def ArgumentIdentification.is_by_short : ArgumentIdentification → Char → Bool
  | .Short c, name => c == name
  | .Both c _, name => c == name
  | .Long _, _ => false

/-- `ArgumentIdentification::is_by_long` (src/argument/mod.rs lines 28-36). -/
def ArgumentIdentification.is_by_long : ArgumentIdentification → String → Bool
  | .Long s, name => s == name
  | .Both _ s, name => s == name
  | .Short _, _ => false

/-- Outcome of one invocation of a caller-supplied handler closure
(`Fn(&mut Peekable<&mut Iter<String>>, &mut Vec<V>) -> Result<V, String>`,
src/argument/parsable_argument.rs): the produced result, the contents the
handler left in the `&mut Vec<V>` it received, and the tokens remaining in
the cursor it received. -/
structure HandlerOut (V : Type) where
  result : Except String V
  values : List V
  rest : List String

/-- `ParsableValueArgument<V>` (src/argument/parsable_argument.rs lines 10-16). -/
structure ParsableValueArgument (V : Type) where
  identification : ArgumentIdentification
  handler : List String → List V → HandlerOut V
  values : List V

/-- `HandleableArgument::handle` for `ParsableValueArgument`
(src/argument/parsable_argument.rs lines 110-118): run the handler on the
cursor and the current values, propagate its error, otherwise push the
produced result onto `values`. -/
def ParsableValueArgument.handle (a : ParsableValueArgument V) (input : List String) :
    Except String Unit × ParsableValueArgument V × List String :=
  let out := a.handler input a.values
  match out.result with
  | .error e => (.error e, { a with values := out.values }, out.rest)
  | .ok v => (.ok (), { a with values := out.values ++ [v] }, out.rest)

/-- `ParsableValueArgument::is_by_short` (lines 120-122). -/
def ParsableValueArgument.is_by_short (a : ParsableValueArgument V) (name : Char) : Bool :=
  a.identification.is_by_short name

/-- `ParsableValueArgument::is_by_long` (lines 124-126). -/
def ParsableValueArgument.is_by_long (a : ParsableValueArgument V) (name : String) : Bool :=
  a.identification.is_by_long name

/-- `ParsableValueArgument::first_value` (lines 46-48). -/
def ParsableValueArgument.first_value (a : ParsableValueArgument V) : Option V :=
  a.values.get? 0

/-- `ParsableValueArgument::validate_integer`
(src/argument/parsable_argument.rs lines 56-69). `Char.isDigit` models
`char::is_digit(10)`. -/
def validate_integer (v : String) : Option String :=
  match v.data with
  | [] => none
  | c :: rest =>
    if (c != '-' || rest.isEmpty) && !c.isDigit then some "Input is not a number"
    else if rest.all (fun x => x.isDigit) then none
    else some "Input is not a number"

/-- Model of Rust's `str::parse::<i64>()` as invoked by the default integer
handler: an optional sign followed by at least one decimal digit, rejected
when the value falls outside the i64 range. -/
def parse_i64 (s : String) : Except String Int :=
  match s.data with
  | [] => .error "cannot parse integer from empty string"
  | c :: rest =>
    let sign : Int := if c == '-' then -1 else 1
    let digits : List Char := if c == '-' || c == '+' then rest else c :: rest
    if digits.isEmpty then .error "invalid digit found in string"
    else if digits.all (fun x => x.isDigit) then
      let n : Int :=
        sign * Int.ofNat (digits.foldl (fun acc x => acc * 10 + (x.toNat - '0'.toNat)) 0)
      if n < -(2 ^ 63 : Int) then .error "number too small to fit in target type"
      else if n > (2 ^ 63 : Int) - 1 then .error "number too large to fit in target type"
      else .ok n
    else .error "invalid digit found in string"

/-- The closure installed by `ParsableValueArgument::new_integer`
(src/argument/parsable_argument.rs lines 73-90): consume one token from the
cursor (an exhausted cursor is an error), validate it, then parse it; the
`&mut Vec<i64>` parameter is never touched. -/
def integerHandler (input : List String) (values : List Int) : HandlerOut Int :=
  match input with
  | v :: rest =>
    match validate_integer v with
    | some err => ⟨.error err, values, rest⟩
    | none =>
      match parse_i64 v with
      | .ok n => ⟨.ok n, values, rest⟩
      | .error e => ⟨.error e, values, rest⟩
  | [] => ⟨.error "No remaining input values.", values, []⟩

/-- `ParsableValueArgument::new_integer` (lines 73-90). -/
def ParsableValueArgument.new_integer (identification : ArgumentIdentification) :
    ParsableValueArgument Int :=
  { identification := identification, handler := integerHandler, values := [] }

/-- The closure installed by `ParsableValueArgument::new_string`
(src/argument/parsable_argument.rs lines 97-107): consume one token
unconditionally; the `&mut Vec<String>` parameter is never touched. -/
def stringHandler (input : List String) (values : List String) : HandlerOut String :=
  match input with
  | v :: rest => ⟨.ok v, values, rest⟩
  | [] => ⟨.error "No remaining input values.", values, []⟩

/-- `ParsableValueArgument::new_string` (lines 97-107). -/
def ParsableValueArgument.new_string (identification : ArgumentIdentification) :
    ParsableValueArgument String :=
  { identification := identification, handler := stringHandler, values := [] }

/-- The `HandleableArgument` trait (src/argument/parsable_argument.rs lines
19-31): the registry stores type-erased mutable handles to caller-owned
parsable arguments through this interface. -/
class HandleableArgument (H : Type) where
  handle : H → List String → Except String Unit × H × List String
  is_by_short : H → Char → Bool
  is_by_long : H → String → Bool

instance (V : Type) : HandleableArgument (ParsableValueArgument V) where
  handle := ParsableValueArgument.handle
  is_by_short := ParsableValueArgument.is_by_short
  is_by_long := ParsableValueArgument.is_by_long

variable {H : Type}

/-- `ArgumentList` (src/lib.rs lines 234-238): the registry. `H` stands for
the dynamic type behind the registered `&mut dyn HandleableArgument` handles. -/
structure ArgumentList (H : Type) where
  dangling_values : List String
  arguments : List Argument
  parsable_arguments : List H

/-- `ArgumentList::new` (src/lib.rs lines 247-253). -/
def ArgumentList.new (H : Type) : ArgumentList H :=
  { dangling_values := [], arguments := [], parsable_arguments := [] }

/-- `ArgumentList::append_arg` (src/lib.rs lines 258-260). -/
def ArgumentList.append_arg (l : ArgumentList H) (argument : Argument) : ArgumentList H :=
  { l with arguments := l.arguments ++ [argument] }

/-- `ArgumentList::append_dangling_value` (src/lib.rs lines 265-267). -/
def ArgumentList.append_dangling_value (l : ArgumentList H) (value : String) : ArgumentList H :=
  { l with dangling_values := l.dangling_values ++ [value] }

/-- `ArgumentList::register_parsable` (src/lib.rs lines 432-434). -/
def ArgumentList.register_parsable (l : ArgumentList H) (arg : H) : ArgumentList H :=
  { l with parsable_arguments := l.parsable_arguments ++ [arg] }

/-- `ArgumentList::search_by_short_name` (src/lib.rs lines 272-284), as the
pure lookup of the first owned argument carrying the short name. -/
def ArgumentList.search_by_short_name (l : ArgumentList H) (name : Char) : Option Argument :=
  l.arguments.find? (fun a => a.short == some name)

/-- `ArgumentList::search_by_long_name` (src/lib.rs lines 329-341). -/
def ArgumentList.search_by_long_name (l : ArgumentList H) (name : String) : Option Argument :=
  l.arguments.find? (fun a => a.long == some name)

/-- `ArgumentList::get_dangling_values` (src/lib.rs lines 344-346). -/
def ArgumentList.get_dangling_values (l : ArgumentList H) : List String :=
  l.dangling_values

/-- The owned-descriptor arm of the dispatch loop: `search_by_short_name`
followed by `add_value` on the argument found, in place (src/lib.rs lines
374-389). `none` when no owned argument carries the short name; otherwise
the `add_value` outcome with the updated argument vector and cursor. -/
def add_to_short (args : List Argument) (name : Char) (input : List String) :
    Option (Except String Unit × List Argument × List String) :=
  match args with
  | [] => none
  | a :: tl =>
    if a.short == some name then
      let out := a.add_value input
      some (out.1, out.2.1 :: tl, out.2.2)
    else
      match add_to_short tl name input with
      | some (r, tl1, rest) => some (r, a :: tl1, rest)
      | none => none

/-- The owned-descriptor arm for long names (src/lib.rs lines 400-414). -/
def add_to_long (args : List Argument) (name : String) (input : List String) :
    Option (Except String Unit × List Argument × List String) :=
  match args with
  | [] => none
  | a :: tl =>
    if a.long == some name then
      let out := a.add_value input
      some (out.1, out.2.1 :: tl, out.2.2)
    else
      match add_to_long tl name input with
      | some (r, tl1, rest) => some (r, a :: tl1, rest)
      | none => none

/-- `ArgumentList::handle_parsable_short_name` (src/lib.rs lines 298-310):
walk the registered handles in registration order; the first one matching
the short name handles the token (`Ok true`, its error propagated);
`Ok false` when none matches. -/
def handle_parsable_short_name [HandleableArgument H] (ps : List H) (name : Char)
    (input : List String) : Except String Bool × List H × List String :=
  match ps with
  | [] => (.ok false, [], input)
  | p :: tl =>
    if HandleableArgument.is_by_short p name then
      let out := HandleableArgument.handle p input
      match out.1 with
      | .ok _ => (.ok true, out.2.1 :: tl, out.2.2)
      | .error e => (.error e, out.2.1 :: tl, out.2.2)
    else
      let out := handle_parsable_short_name tl name input
      (out.1, p :: out.2.1, out.2.2)

/-- `ArgumentList::handle_parsable_long_name` (src/lib.rs lines 312-324). -/
def handle_parsable_long_name [HandleableArgument H] (ps : List H) (name : String)
    (input : List String) : Except String Bool × List H × List String :=
  match ps with
  | [] => (.ok false, [], input)
  | p :: tl =>
    if HandleableArgument.is_by_long p name then
      let out := HandleableArgument.handle p input
      match out.1 with
      | .ok _ => (.ok true, out.2.1 :: tl, out.2.2)
      | .error e => (.error e, out.2.1 :: tl, out.2.2)
    else
      let out := handle_parsable_long_name tl name input
      (out.1, p :: out.2.1, out.2.2)

/-- The three token shapes distinguished by the dispatch loop. -/
inductive TokenClass where
  | shortOpt (name : Char)
  | longOpt (name : String)
  | dangling
  deriving DecidableEq

/-- The token classification performed inline by `ArgumentList::parse_args`
(src/lib.rs lines 364-398): a token of exactly 2 characters `-c` with
alphabetic `c` is a short option named `c`; a token of more than 2
characters starting with two dashes whose third character is alphabetic is
a long option named by everything after the two dashes (`&word[2..]`);
every other token is a dangling value. `Char.isAlpha` models
`char::is_alphabetic` on the ASCII range. -/
def tokenClass (word : String) : TokenClass :=
  match word.data with
  | ['-', c] => if c.isAlpha then .shortOpt c else .dangling
  | '-' :: '-' :: c :: cs => if c.isAlpha then .longOpt (String.mk (c :: cs)) else .dangling
  | _ => .dangling

/-- The body of `ArgumentList::parse_args` (src/lib.rs lines 360-427),
written with explicit fuel: every iteration of the Rust `while let` loop
consumes at least the token it examined from the shared iterator (handlers
can only advance it further), so `input.length` iterations always suffice
and the fuel-exhausted branch is unreachable from `parse_args`. On error
the Rust method returns early with `self` in its partially updated state,
which the embedding returns alongside the error. -/
def parseLoop [HandleableArgument H] : Nat → ArgumentList H → List String →
    Except String Unit × ArgumentList H
  | 0, l, _ => (.ok (), l)
  | _ + 1, l, [] => (.ok (), l)
  | fuel + 1, l, word :: rest =>
    match tokenClass word with
    | .shortOpt c =>
      match add_to_short l.arguments c rest with
      | some (r, args1, rest1) =>
        match r with
        | .ok _ => parseLoop fuel { l with arguments := args1 } rest1
        | .error e => (.error e, { l with arguments := args1 })
      | none =>
        match handle_parsable_short_name l.parsable_arguments c rest with
        | (.ok true, ps1, rest1) => parseLoop fuel { l with parsable_arguments := ps1 } rest1
        | (.ok false, ps1, _) =>
            (.error ("Could not find argument identified by " ++ word ++ "."),
             { l with parsable_arguments := ps1 })
        | (.error e, ps1, _) => (.error e, { l with parsable_arguments := ps1 })
    | .longOpt s =>
      match add_to_long l.arguments s rest with
      | some (r, args1, rest1) =>
        match r with
        | .ok _ => parseLoop fuel { l with arguments := args1 } rest1
        | .error e => (.error e, { l with arguments := args1 })
      | none =>
        match handle_parsable_long_name l.parsable_arguments s rest with
        | (.ok true, ps1, rest1) => parseLoop fuel { l with parsable_arguments := ps1 } rest1
        | (.ok false, ps1, _) =>
            (.error ("Could not find argument identified by " ++ word ++ "."),
             { l with parsable_arguments := ps1 })
        | (.error e, ps1, _) => (.error e, { l with parsable_arguments := ps1 })
    | .dangling => parseLoop fuel (l.append_dangling_value word) rest

/-- `ArgumentList::parse_args` (src/lib.rs lines 360-427). -/
def ArgumentList.parse_args [HandleableArgument H] (l : ArgumentList H) (input : List String) :
    Except String Unit × ArgumentList H :=
  parseLoop input.length l input

/-- `ArgBuilder` (src/argument/builder.rs lines 3-7). -/
structure ArgBuilder where
  arg_type : ArgType
  short_name : Option Char
  long_name : Option String
  deriving DecidableEq

/-- `ArgBuilder::new` (src/argument/builder.rs lines 11-17). -/
def ArgBuilder.new (arg_type : ArgType) : ArgBuilder :=
  { arg_type := arg_type, short_name := none, long_name := none }

/-- `ArgBuilder::set_short_name` (lines 19-22). -/
def ArgBuilder.set_short_name (b : ArgBuilder) (short_name : Char) : ArgBuilder :=
  { b with short_name := some short_name }

/-- `ArgBuilder::set_long_name` (lines 24-27). -/
def ArgBuilder.set_long_name (b : ArgBuilder) (long_name : String) : ArgBuilder :=
  { b with long_name := some long_name }

/-- `ArgBuilder::set_type` (lines 29-32). -/
def ArgBuilder.set_type (b : ArgBuilder) (new_type : ArgType) : ArgBuilder :=
  { b with arg_type := new_type }

/-- `ArgBuilder::build` (src/argument/builder.rs lines 34-41): delegates to
the owned-descriptor constructor. -/
def ArgBuilder.build (b : ArgBuilder) : Except String Argument :=
  Argument.new b.short_name b.long_name b.arg_type

/-- Spec-side classification, phrased from the specification's words (claim
C1): exactly 2 characters, first `-`, second alphabetic, gives a short
option named by the second character; more than 2 characters, first two
dashes, third alphabetic, gives a long option named by the substring after
the two leading dashes; every other token is dangling. -/
def classifySpec (word : String) : TokenClass :=
  let cs := word.data
  if cs.length = 2 ∧ cs.getD 0 ' ' = '-' ∧ (cs.getD 1 ' ').isAlpha = true then
    .shortOpt (cs.getD 1 ' ')
  else if 2 < cs.length ∧ cs.getD 0 ' ' = '-' ∧ cs.getD 1 ' ' = '-' ∧
      (cs.getD 2 ' ').isAlpha = true then
    .longOpt (String.mk (cs.drop 2))
  else
    .dangling

/-- Spec-side shape of a valid integer token (claim C5): digits optionally
prefixed with a single minus sign, and not solely a minus sign. -/
def specIntFormat (word : String) : Bool :=
  match word.data with
  | [] => false
  | c :: rest =>
    if c == '-' then !rest.isEmpty && rest.all (fun x => x.isDigit)
    else (c :: rest).all (fun x => x.isDigit)

/-- Spec-side harness for claim C3: apply `Argument.add_value` once per
occurrence, each call receiving a cursor holding exactly the one trailing
token of that occurrence. -/
def addOccurrences (a : Argument) : List String → Except String Argument
  | [] => .ok a
  | w :: ws =>
    match a.add_value [w] with
    | (.ok _, a1, _) => addOccurrences a1 ws
    | (.error e, _, _) => .error e

/-- The implicit result/arity agreement invariant of claim C9: whenever the
result slot is filled, its variant matches the argument's arity kind. -/
def Argument.wf (a : Argument) : Bool :=
  match a.arg_result with
  | none => true
  | some .Flag => a.arg_type == .Flag
  | some (.Value _) => a.arg_type == .Value
  | some (.ValueList _) => a.arg_type == .ValueList

/-- A concrete generic descriptor whose handler clears the accumulated
sequence before returning a value; used to probe claim C10. -/
def cexArg : ParsableValueArgument Nat :=
  { identification := .Short 'z'
    handler := fun input _ => ⟨.ok 5, [], input⟩
    values := [0] }

/-- The inline classification of `parse_args` agrees, on every string, with
the classification stated by the specification. -/
theorem tokenClass_eq_classifySpec (word : String) : tokenClass word = classifySpec word := by
  obtain ⟨cs⟩ := word
  unfold tokenClass classifySpec
  split
  next c heq =>
    replace heq : cs = [Char.ofNat 45, c] := heq
    subst heq
    by_cases hc : c.isAlpha <;> simp [hc, List.getD]
  next c cs2 heq =>
    replace heq : cs = Char.ofNat 45 :: Char.ofNat 45 :: c :: cs2 := heq
    subst heq
    by_cases hc : c.isAlpha <;> simp [hc, List.getD]
  next h1 h2 =>
    rcases cs with _ | ⟨a, _ | ⟨b, _ | ⟨c, tl⟩⟩⟩
    · simp
    · simp
    · rw [if_neg, if_neg]
      · rintro ⟨h, -⟩
        simp at h
      · rintro ⟨-, h0, -⟩
        simp [List.getD] at h0
        exact h1 b (by simp [h0])
    · rw [if_neg, if_neg]
      · rintro ⟨-, h0, hb, -⟩
        simp [List.getD] at h0 hb
        exact h2 c tl (by simp [h0, hb])
      · rintro ⟨h, -⟩
        simp at h

/-- C1: `parse_args` classifies each token as the spec states: a token of
exactly 2 characters `-c` with alphabetic `c` is a short-option token named
`c`; a token of more than 2 characters `--n...` with alphabetic third
character is a long-option token named by the substring after the two
dashes; every other token (including "-1", "--" and "x") is appended
verbatim to the dangling-value sequence, in encounter order. -/
theorem c1_token_classification :
    (∀ word : String, tokenClass word = classifySpec word)
    ∧ (∀ (H : Type) [HandleableArgument H] (l : ArgumentList H) (word : String)
        (rest : List String), tokenClass word = .dangling →
        l.parse_args (word :: rest) = (l.append_dangling_value word).parse_args rest)
    ∧ classifySpec "-1" = .dangling ∧ classifySpec "--" = .dangling
    ∧ classifySpec "x" = .dangling := by
  refine ⟨tokenClass_eq_classifySpec, ?_, by decide, by decide, by decide⟩
  intro Hty inst l word rest h
  show parseLoop (word :: rest).length l (word :: rest) = _
  simp only [List.length_cons]
  simp [parseLoop, h, ArgumentList.parse_args]

/-- Closed instance of C1: the token "x" is dangling and is appended to the
dangling-value sequence. -/
theorem c1_witness :
    (ArgumentList.mk [] [] ([] : List (ParsableValueArgument String))).parse_args ["x"] =
      ((ArgumentList.mk [] [] ([] : List (ParsableValueArgument String))).append_dangling_value
        "x").parse_args [] :=
  c1_token_classification.2.1 (ParsableValueArgument String) _ "x" [] (by decide)

/-- C7: `get_value` and `get_values` fail on a wrong arity kind or an absent
result; `get_flag` fails exactly on a non-Flag argument and reports `false`,
not an error, for an unset flag. (The accessors take the argument by shared
reference in the source and are embedded as pure functions, so they cannot
modify the descriptor or the registry.) -/
theorem c7_accessor_errors :
    (∀ a : Argument, a.arg_type ≠ .Value → a.get_value = .error "This argument is not an value")
    ∧ (∀ a : Argument, a.arg_type = .Value → a.arg_result = none →
        a.get_value = .error "No value assigned to result")
    ∧ (∀ a : Argument, a.arg_type ≠ .ValueList →
        a.get_values = .error "This argument is not an value list")
    ∧ (∀ a : Argument, a.arg_type = .ValueList → a.arg_result = none →
        a.get_values = .error "No result specified")
    ∧ (∀ a : Argument, a.arg_type ≠ .Flag → a.get_flag = .error "Argument is not an flag type")
    ∧ (∀ a : Argument, a.arg_type = .Flag → a.get_flag = .ok a.arg_result.isSome)
    ∧ (∀ a : Argument, a.arg_type = .Flag → a.arg_result = none → a.get_flag = .ok false) := by
  refine ⟨?_, ?_, ?_, ?_, ?_, ?_, ?_⟩ <;> intro a
  · intro h
    cases ht : a.arg_type
    case Value => exact absurd ht h
    all_goals simp [Argument.get_value, ht]
  · intro ht hr
    simp [Argument.get_value, ht, hr]
  · intro h
    cases ht : a.arg_type
    case ValueList => exact absurd ht h
    all_goals simp [Argument.get_values, ht]
  · intro ht hr
    simp [Argument.get_values, ht, hr]
  · intro h
    cases ht : a.arg_type
    case Flag => exact absurd ht h
    all_goals simp [Argument.get_flag, ht]
  · intro ht
    simp [Argument.get_flag, ht]
  · intro ht hr
    simp [Argument.get_flag, ht, hr]

/-- Closed instance of C7: an unset flag reads as `false`, not as an error. -/
theorem c7_witness :
    (Argument.mk (some 'v') none ArgType.Flag none).get_flag = .ok false :=
  c7_accessor_errors.2.2.2.2.2.2 (Argument.mk (some 'v') none ArgType.Flag none) rfl rfl

/-- C8: `Argument::new` fails exactly when both names are absent, with the
"at least one name" error; `ArgBuilder::build` delegates to the constructor
and surfaces the same error when no name was set; with at least one name the
construction succeeds with an absent result. -/
theorem c8_constructor_requires_name :
    (∀ t, Argument.new none none t =
        .error "At least one name of argument must be specified (short or long or both)")
    ∧ (∀ (s : Option Char) (l : Option String) t, s.isSome ∨ l.isSome →
        Argument.new s l t = .ok { short := s, long := l, arg_type := t, arg_result := none })
    ∧ (∀ b : ArgBuilder, b.build = Argument.new b.short_name b.long_name b.arg_type)
    ∧ (∀ t, (ArgBuilder.new t).build =
        .error "At least one name of argument must be specified (short or long or both)") := by
  refine ⟨fun t => rfl, ?_, fun b => rfl, fun t => rfl⟩
  intro s l t h
  cases s <;> cases l
  · simp at h
  all_goals simp [Argument.new]

/-- Closed instance of C8: a short-only descriptor is constructed with an
absent result. -/
theorem c8_witness :
    Argument.new (some 'x') none ArgType.Flag =
      .ok { short := some 'x', long := none, arg_type := ArgType.Flag, arg_result := none } :=
  c8_constructor_requires_name.2.1 (some 'x') none ArgType.Flag (Or.inl rfl)

/-- Repeated ValueList occurrences accumulate onto an existing list in
supply order. -/
theorem addOccurrences_valuelist (ws : List String) :
    ∀ (a : Argument) (vs : List String), a.arg_type = .ValueList →
      a.arg_result = some (.ValueList vs) →
      addOccurrences a ws = .ok { a with arg_result := some (.ValueList (vs ++ ws)) } := by
  induction ws with
  | nil =>
    intro a vs ht hr
    simp [addOccurrences]
    cases a
    simp_all
  | cons w tl ih =>
    intro a vs ht hr
    simp only [addOccurrences, Argument.add_value, ht, hr, Option.isNone_some, Bool.false_eq_true,
      if_false]
    exact (ih _ (vs ++ [w]) rfl rfl).trans (by simp)

/-- C3: `add_value` per arity kind: a Flag with a present result fails with
"Flag already set"; a Value with a present result fails with "Value already
assigned" and otherwise consumes exactly one token, failing with "Expected
value" on an exhausted cursor; a ValueList never fails on repetition, each
occurrence consumes one token and appends, N occurrences accumulate exactly
the N supplied tokens in order, and only an exhausted cursor fails. -/
theorem c3_add_value_arity :
    (∀ (a : Argument) (r : ArgResult) (input : List String), a.arg_type = .Flag →
        a.arg_result = some r → a.add_value input = (.error "Flag already set", a, input))
    ∧ (∀ (a : Argument) (r : ArgResult) (input : List String), a.arg_type = .Value →
        a.arg_result = some r → a.add_value input = (.error "Value already assigned", a, input))
    ∧ (∀ (a : Argument) (word : String) (rest : List String), a.arg_type = .Value →
        a.arg_result = none →
        a.add_value (word :: rest) = (.ok (), { a with arg_result := some (.Value word) }, rest))
    ∧ (∀ a : Argument, a.arg_type = .Value → a.arg_result = none →
        a.add_value [] = (.error "Expected value", a, []))
    ∧ (∀ (a : Argument) (vs : List String) (word : String) (rest : List String),
        a.arg_type = .ValueList → a.arg_result = some (.ValueList vs) →
        a.add_value (word :: rest) =
          (.ok (), { a with arg_result := some (.ValueList (vs ++ [word])) }, rest))
    ∧ (∀ (a : Argument) (word : String) (rest : List String), a.arg_type = .ValueList →
        a.arg_result = none →
        a.add_value (word :: rest) =
          (.ok (), { a with arg_result := some (.ValueList [word]) }, rest))
    ∧ (∀ a : Argument, a.arg_type = .ValueList → (a.add_value []).1 = .error "Expected value")
    ∧ (∀ (a : Argument) (ws : List String), a.arg_type = .ValueList → a.arg_result = none →
        ws ≠ [] → addOccurrences a ws = .ok { a with arg_result := some (.ValueList ws) }) := by
  refine ⟨?_, ?_, ?_, ?_, ?_, ?_, ?_, ?_⟩
  · intro a r input ht hr
    simp [Argument.add_value, ht, hr]
  · intro a r input ht hr
    simp [Argument.add_value, ht, hr]
  · intro a word rest ht hr
    simp [Argument.add_value, ht, hr]
  · intro a ht hr
    simp [Argument.add_value, ht, hr]
  · intro a vs word rest ht hr
    simp [Argument.add_value, ht, hr]
  · intro a word rest ht hr
    simp [Argument.add_value, ht, hr]
  · intro a ht
    simp [Argument.add_value, ht]
  · intro a ws ht hr hne
    rcases ws with _ | ⟨w, tl⟩
    · exact absurd rfl hne
    · simp only [addOccurrences, Argument.add_value, ht, hr, Option.isNone_none, if_true]
      exact (addOccurrences_valuelist tl _ ([] ++ [w]) rfl rfl).trans (by simp)

/-- Closed instance of C3: two ValueList occurrences accumulate both tokens
in supply order. -/
theorem c3_witness :
    addOccurrences (Argument.mk (some 'l') none ArgType.ValueList none) ["a", "b"] =
      .ok (Argument.mk (some 'l') none ArgType.ValueList
        (some (.ValueList ["a", "b"]))) :=
  c3_add_value_arity.2.2.2.2.2.2.2 (Argument.mk (some 'l') none ArgType.ValueList none)
    ["a", "b"] rfl rfl (by decide)

/-- C6: parsing `["-d", "-p", "/file", "--list", "a", "-l", "b"]` against the
owned descriptors (short 'd', Flag), (short 'p', Value) and (short 'l' /
long "list", ValueList) succeeds; afterwards the flag is set, the value is
"/file", the list is ["a", "b"] in that order, and the dangling-value
sequence is empty. -/
theorem c6_round_trip :
    (ArgumentList.parse_args
        { dangling_values := []
          arguments :=
            [ { short := some 'd', long := none, arg_type := .Flag, arg_result := none }
            , { short := some 'p', long := none, arg_type := .Value, arg_result := none }
            , { short := some 'l', long := some "list", arg_type := .ValueList,
                arg_result := none } ]
          parsable_arguments := ([] : List (ParsableValueArgument String)) }
        ["-d", "-p", "/file", "--list", "a", "-l", "b"]).1 = .ok ()
    ∧ (ArgumentList.parse_args
        { dangling_values := []
          arguments :=
            [ { short := some 'd', long := none, arg_type := .Flag, arg_result := none }
            , { short := some 'p', long := none, arg_type := .Value, arg_result := none }
            , { short := some 'l', long := some "list", arg_type := .ValueList,
                arg_result := none } ]
          parsable_arguments := ([] : List (ParsableValueArgument String)) }
        ["-d", "-p", "/file", "--list", "a", "-l", "b"]).2.arguments =
      [ { short := some 'd', long := none, arg_type := .Flag, arg_result := some .Flag }
      , { short := some 'p', long := none, arg_type := .Value,
          arg_result := some (.Value "/file") }
      , { short := some 'l', long := some "list", arg_type := .ValueList,
          arg_result := some (.ValueList ["a", "b"]) } ]
    ∧ (ArgumentList.parse_args
        { dangling_values := []
          arguments :=
            [ { short := some 'd', long := none, arg_type := .Flag, arg_result := none }
            , { short := some 'p', long := none, arg_type := .Value, arg_result := none }
            , { short := some 'l', long := some "list", arg_type := .ValueList,
                arg_result := none } ]
          parsable_arguments := ([] : List (ParsableValueArgument String)) }
        ["-d", "-p", "/file", "--list", "a", "-l", "b"]).2.dangling_values = [] := by
  exact ⟨rfl, by decide, rfl⟩

/-- When no owned argument carries the short name, the owned arm of the
dispatch finds nothing. -/
theorem add_to_short_eq_none (c : Char) (input : List String) :
    ∀ args : List Argument, (∀ a ∈ args, a.short ≠ some c) →
      add_to_short args c input = none := by
  intro args
  induction args with
  | nil => intro _; rfl
  | cons a tl ih =>
    intro h
    have ha : (a.short == some c) = false := by
      simp only [beq_eq_false_iff_ne, ne_eq]
      exact h a (List.mem_cons_self a tl)
    simp [add_to_short, ha, ih (fun x hx => h x (List.mem_cons_of_mem a hx))]

/-- When no owned argument carries the long name, the owned arm of the
dispatch finds nothing. -/
theorem add_to_long_eq_none (s : String) (input : List String) :
    ∀ args : List Argument, (∀ a ∈ args, a.long ≠ some s) →
      add_to_long args s input = none := by
  intro args
  induction args with
  | nil => intro _; rfl
  | cons a tl ih =>
    intro h
    have ha : (a.long == some s) = false := by
      simp only [beq_eq_false_iff_ne, ne_eq]
      exact h a (List.mem_cons_self a tl)
    simp [add_to_long, ha, ih (fun x hx => h x (List.mem_cons_of_mem a hx))]

/-- When no registered handle matches the short name, the generic tier
reports `Ok(false)` and leaves everything untouched. -/
theorem handle_parsable_short_no_match [HandleableArgument H] (c : Char) (input : List String) :
    ∀ ps : List H, (∀ p ∈ ps, HandleableArgument.is_by_short p c = false) →
      handle_parsable_short_name ps c input = (.ok false, ps, input) := by
  intro ps
  induction ps with
  | nil => intro _; rfl
  | cons p tl ih =>
    intro h
    simp [handle_parsable_short_name, h p (List.mem_cons_self p tl),
      ih (fun x hx => h x (List.mem_cons_of_mem p hx))]

/-- When no registered handle matches the long name, the generic tier
reports `Ok(false)` and leaves everything untouched. -/
theorem handle_parsable_long_no_match [HandleableArgument H] (s : String) (input : List String) :
    ∀ ps : List H, (∀ p ∈ ps, HandleableArgument.is_by_long p s = false) →
      handle_parsable_long_name ps s input = (.ok false, ps, input) := by
  intro ps
  induction ps with
  | nil => intro _; rfl
  | cons p tl ih =>
    intro h
    simp [handle_parsable_long_name, h p (List.mem_cons_self p tl),
      ih (fun x hx => h x (List.mem_cons_of_mem p hx))]

/-- C2: an option token whose name matches no owned descriptor and no
registered generic descriptor makes `parse_args` fail at once with the
unknown-argument error (in the source, "Could not find argument identified
by <token>."), and the registry is returned exactly as it was: no token
after the unknown option is processed. -/
theorem c2_unknown_option_halts :
    (∀ (H : Type) [HandleableArgument H] (l : ArgumentList H) (word : String)
        (rest : List String) (c : Char), tokenClass word = .shortOpt c →
        (∀ a ∈ l.arguments, a.short ≠ some c) →
        (∀ p ∈ l.parsable_arguments, HandleableArgument.is_by_short p c = false) →
        l.parse_args (word :: rest) =
          (.error ("Could not find argument identified by " ++ word ++ "."), l))
    ∧ (∀ (H : Type) [HandleableArgument H] (l : ArgumentList H) (word : String)
        (rest : List String) (s : String), tokenClass word = .longOpt s →
        (∀ a ∈ l.arguments, a.long ≠ some s) →
        (∀ p ∈ l.parsable_arguments, HandleableArgument.is_by_long p s = false) →
        l.parse_args (word :: rest) =
          (.error ("Could not find argument identified by " ++ word ++ "."), l)) := by
  constructor
  · intro Hty inst l word rest c hw howned hps
    show parseLoop (word :: rest).length l (word :: rest) = _
    simp only [List.length_cons]
    simp [parseLoop, hw, add_to_short_eq_none c rest l.arguments howned,
      handle_parsable_short_no_match c rest l.parsable_arguments hps]
  · intro Hty inst l word rest s hw howned hps
    show parseLoop (word :: rest).length l (word :: rest) = _
    simp only [List.length_cons]
    simp [parseLoop, hw, add_to_long_eq_none s rest l.arguments howned,
      handle_parsable_long_no_match s rest l.parsable_arguments hps]

/-- Closed instance of C2: the unknown option "-x" aborts parsing with the
unknown-argument error and an unchanged registry, the trailing token
unprocessed. -/
theorem c2_witness :
    (ArgumentList.mk [] [Argument.mk (some 'v') none ArgType.Value none]
        ([] : List (ParsableValueArgument String))).parse_args ["-x", "tail"] =
      (.error "Could not find argument identified by -x.",
       ArgumentList.mk [] [Argument.mk (some 'v') none ArgType.Value none] []) :=
  c2_unknown_option_halts.1 (ParsableValueArgument String)
    (ArgumentList.mk [] [Argument.mk (some 'v') none ArgType.Value none] []) "-x" ["tail"] 'x'
    (by decide) (by decide) (by simp)

/-- C4: for every option token, short or long, the dispatch loop resolves
the name against the owned tier first: an owned match is handled by
`add_value` on the matched descriptor, for arbitrary fuel, trailing cursor
and registry, with the generic tier not consulted and passed on untouched;
only when no owned descriptor matches is the generic tier searched, and
there the first registered matching handle is the one invoked
(registration order); hence a name registered in both tiers is handled by
the owned descriptor and the identically named generic descriptor is never
invoked for that token. -/
theorem c4_dispatch_owned_first :
    (∀ (H : Type) [HandleableArgument H] (fuel : Nat) (l : ArgumentList H) (word : String)
        (rest : List String) (c : Char)
        (out : Except String Unit × List Argument × List String),
        tokenClass word = .shortOpt c →
        add_to_short l.arguments c rest = some out →
        parseLoop (fuel + 1) l (word :: rest) =
          (match out.1 with
           | .ok _ => parseLoop fuel { l with arguments := out.2.1 } out.2.2
           | .error e => (.error e, { l with arguments := out.2.1 })))
    ∧ (∀ (H : Type) [HandleableArgument H] (fuel : Nat) (l : ArgumentList H) (word : String)
        (rest : List String) (s : String)
        (out : Except String Unit × List Argument × List String),
        tokenClass word = .longOpt s →
        add_to_long l.arguments s rest = some out →
        parseLoop (fuel + 1) l (word :: rest) =
          (match out.1 with
           | .ok _ => parseLoop fuel { l with arguments := out.2.1 } out.2.2
           | .error e => (.error e, { l with arguments := out.2.1 })))
    ∧ (∀ (H : Type) [HandleableArgument H] (fuel : Nat) (l : ArgumentList H) (word : String)
        (rest : List String) (c : Char),
        tokenClass word = .shortOpt c →
        add_to_short l.arguments c rest = none →
        parseLoop (fuel + 1) l (word :: rest) =
          (match handle_parsable_short_name l.parsable_arguments c rest with
           | (.ok true, ps1, rest1) => parseLoop fuel { l with parsable_arguments := ps1 } rest1
           | (.ok false, ps1, _) =>
               (.error ("Could not find argument identified by " ++ word ++ "."),
                { l with parsable_arguments := ps1 })
           | (.error e, ps1, _) => (.error e, { l with parsable_arguments := ps1 })))
    ∧ (∀ (H : Type) [HandleableArgument H] (fuel : Nat) (l : ArgumentList H) (word : String)
        (rest : List String) (s : String),
        tokenClass word = .longOpt s →
        add_to_long l.arguments s rest = none →
        parseLoop (fuel + 1) l (word :: rest) =
          (match handle_parsable_long_name l.parsable_arguments s rest with
           | (.ok true, ps1, rest1) => parseLoop fuel { l with parsable_arguments := ps1 } rest1
           | (.ok false, ps1, _) =>
               (.error ("Could not find argument identified by " ++ word ++ "."),
                { l with parsable_arguments := ps1 })
           | (.error e, ps1, _) => (.error e, { l with parsable_arguments := ps1 })))
    ∧ (∀ (H : Type) [HandleableArgument H] (ps1 : List H) (p : H) (ps2 : List H) (c : Char)
        (input : List String),
        (∀ q ∈ ps1, HandleableArgument.is_by_short q c = false) →
        HandleableArgument.is_by_short p c = true →
        handle_parsable_short_name (ps1 ++ p :: ps2) c input =
          ((match (HandleableArgument.handle p input).1 with
            | .ok _ => Except.ok true
            | .error e => Except.error e),
           ps1 ++ (HandleableArgument.handle p input).2.1 :: ps2,
           (HandleableArgument.handle p input).2.2))
    ∧ (∀ (H : Type) [HandleableArgument H] (ps1 : List H) (p : H) (ps2 : List H) (s : String)
        (input : List String),
        (∀ q ∈ ps1, HandleableArgument.is_by_long q s = false) →
        HandleableArgument.is_by_long p s = true →
        handle_parsable_long_name (ps1 ++ p :: ps2) s input =
          ((match (HandleableArgument.handle p input).1 with
            | .ok _ => Except.ok true
            | .error e => Except.error e),
           ps1 ++ (HandleableArgument.handle p input).2.1 :: ps2,
           (HandleableArgument.handle p input).2.2))
    ∧ (∀ (H : Type) [HandleableArgument H] (l : ArgumentList H) (c : Char)
        (r : Except String Unit) (args1 : List Argument) (rest1 : List String),
        c.isAlpha = true →
        add_to_short l.arguments c [] = some (r, args1, rest1) →
        (l.parse_args [String.mk ['-', c]]).2.parsable_arguments = l.parsable_arguments
          ∧ (l.parse_args [String.mk ['-', c]]).2.arguments = args1)
    ∧ (∀ (H : Type) [HandleableArgument H] (l : ArgumentList H) (c : Char) (cs : List Char)
        (r : Except String Unit) (args1 : List Argument) (rest1 : List String),
        c.isAlpha = true →
        add_to_long l.arguments (String.mk (c :: cs)) [] = some (r, args1, rest1) →
        (l.parse_args [String.mk ('-' :: '-' :: c :: cs)]).2.parsable_arguments =
            l.parsable_arguments
          ∧ (l.parse_args [String.mk ('-' :: '-' :: c :: cs)]).2.arguments = args1) := by
  refine ⟨?_, ?_, ?_, ?_, ?_, ?_, ?_, ?_⟩
  · intro Hty inst fuel l word rest c out hw hfind
    obtain ⟨r, args1, rest1⟩ := out
    cases r with
    | ok u =>
      cases u
      simp only [parseLoop, hw, hfind]
    | error e =>
      simp only [parseLoop, hw, hfind]
  · intro Hty inst fuel l word rest s out hw hfind
    obtain ⟨r, args1, rest1⟩ := out
    cases r with
    | ok u =>
      cases u
      simp only [parseLoop, hw, hfind]
    | error e =>
      simp only [parseLoop, hw, hfind]
  · intro Hty inst fuel l word rest c hw hfind
    simp only [parseLoop, hw, hfind]
  · intro Hty inst fuel l word rest s hw hfind
    simp only [parseLoop, hw, hfind]
  · intro Hty inst ps1 p ps2 c input h1 hp
    revert h1
    induction ps1 with
    | nil =>
      intro _
      cases hout : (HandleableArgument.handle p input).1 <;>
        simp [handle_parsable_short_name, hp, hout]
    | cons q tl ih =>
      intro h1
      rw [List.cons_append, handle_parsable_short_name]
      simp only [h1 q (List.mem_cons_self q tl)]
      rw [ih (fun x hx => h1 x (List.mem_cons_of_mem q hx))]
      simp
  · intro Hty inst ps1 p ps2 s input h1 hp
    revert h1
    induction ps1 with
    | nil =>
      intro _
      cases hout : (HandleableArgument.handle p input).1 <;>
        simp [handle_parsable_long_name, hp, hout]
    | cons q tl ih =>
      intro h1
      rw [List.cons_append, handle_parsable_long_name]
      simp only [h1 q (List.mem_cons_self q tl)]
      rw [ih (fun x hx => h1 x (List.mem_cons_of_mem q hx))]
      simp
  · intro Hty inst l c r args1 rest1 hc hfound
    have hw : tokenClass (String.mk ['-', c]) = .shortOpt c := by
      simp [tokenClass, hc]
    cases r with
    | ok u =>
      cases u
      constructor <;> simp [ArgumentList.parse_args, parseLoop, hw, hfound]
    | error e =>
      constructor <;> simp [ArgumentList.parse_args, parseLoop, hw, hfound]
  · intro Hty inst l c cs r args1 rest1 hc hfound
    have hw : tokenClass (String.mk ('-' :: '-' :: c :: cs)) = .longOpt (String.mk (c :: cs)) := by
      simp [tokenClass, hc]
    cases r with
    | ok u =>
      cases u
      constructor <;> simp [ArgumentList.parse_args, parseLoop, hw, hfound]
    | error e =>
      constructor <;> simp [ArgumentList.parse_args, parseLoop, hw, hfound]

/-- Closed instance of C4: with the short name 'd' present in both tiers,
parsing "-d" is handled by the owned flag and the generic tier is left
exactly as registered; likewise for the long name "list" present in both
tiers when parsing "--list". -/
theorem c4_witness :
    ((ArgumentList.mk [] [Argument.mk (some 'd') none ArgType.Flag none]
        [ParsableValueArgument.new_string (.Short 'd')]).parse_args
        [String.mk ['-', 'd']]).2.parsable_arguments =
      [ParsableValueArgument.new_string (.Short 'd')]
    ∧ ((ArgumentList.mk [] [Argument.mk none (some "list") ArgType.Flag none]
        [ParsableValueArgument.new_string (.Long "list")]).parse_args
        [String.mk ['-', '-', 'l', 'i', 's', 't']]).2.parsable_arguments =
      [ParsableValueArgument.new_string (.Long "list")] :=
  ⟨(c4_dispatch_owned_first.2.2.2.2.2.2.1 (ParsableValueArgument String)
      (ArgumentList.mk [] [Argument.mk (some 'd') none ArgType.Flag none]
        [ParsableValueArgument.new_string (.Short 'd')]) 'd' (.ok ())
      [Argument.mk (some 'd') none ArgType.Flag (some .Flag)] [] (by decide) rfl).1,
   (c4_dispatch_owned_first.2.2.2.2.2.2.2 (ParsableValueArgument String)
      (ArgumentList.mk [] [Argument.mk none (some "list") ArgType.Flag none]
        [ParsableValueArgument.new_string (.Long "list")]) 'l' ['i', 's', 't'] (.ok ())
      [Argument.mk none (some "list") ArgType.Flag (some .Flag)] [] (by decide) rfl).1⟩

/-- The source's `validate_integer` accepts exactly the empty string plus the
strings of the spec's integer shape (digits, optionally after one minus
sign, not solely a minus sign). -/
theorem validate_integer_eq_none (v : String) :
    validate_integer v = none ↔ (v.data = [] ∨ specIntFormat v = true) := by
  obtain ⟨cs⟩ := v
  unfold validate_integer specIntFormat
  rcases cs with _ | ⟨c, rest⟩
  · simp
  · by_cases hc : c = '-'
    · subst hc
      have hd : ('-').isDigit = false := by decide
      by_cases he : rest.isEmpty <;>
        by_cases hall : rest.all (fun x => x.isDigit) <;>
          simp [hd, he, hall]
    · by_cases hd : c.isDigit <;>
        by_cases hall : rest.all (fun x => x.isDigit) <;>
          simp [hc, hd, hall]

/-- C5: the default integer handler consumes exactly one token and succeeds
exactly on tokens of the spec's integer shape that parse to an i64; "123"
yields 123 and "-5" yields -5, while "-", "12a" and "1.2" fail validation
with the "Input is not a number" error; an exhausted cursor is an error. -/
theorem c5_integer_handler :
    (∀ (v : String) (rest : List String) (values : List Int),
        ((integerHandler (v :: rest) values).result.isOk = true ↔
          specIntFormat v = true ∧ (parse_i64 v).isOk = true))
    ∧ (∀ (v : String) (rest : List String) (values : List Int) (n : Int),
        specIntFormat v = true → parse_i64 v = .ok n →
        integerHandler (v :: rest) values = ⟨.ok n, values, rest⟩)
    ∧ (∀ values : List Int,
        integerHandler [] values = ⟨.error "No remaining input values.", values, []⟩)
    ∧ (∀ (id : ArgumentIdentification) (rest : List String),
        (ParsableValueArgument.new_integer id).handle ("123" :: rest) =
          (.ok (), { ParsableValueArgument.new_integer id with values := [123] }, rest))
    ∧ (∀ (id : ArgumentIdentification) (rest : List String),
        (ParsableValueArgument.new_integer id).handle ("-5" :: rest) =
          (.ok (), { ParsableValueArgument.new_integer id with values := [-5] }, rest))
    ∧ (∀ (id : ArgumentIdentification) (rest : List String),
        (ParsableValueArgument.new_integer id).handle ("-" :: rest) =
          (.error "Input is not a number", ParsableValueArgument.new_integer id, rest))
    ∧ (∀ (id : ArgumentIdentification) (rest : List String),
        (ParsableValueArgument.new_integer id).handle ("12a" :: rest) =
          (.error "Input is not a number", ParsableValueArgument.new_integer id, rest))
    ∧ (∀ (id : ArgumentIdentification) (rest : List String),
        (ParsableValueArgument.new_integer id).handle ("1.2" :: rest) =
          (.error "Input is not a number", ParsableValueArgument.new_integer id, rest))
    ∧ (∀ id : ArgumentIdentification,
        (ParsableValueArgument.new_integer id).handle [] =
          (.error "No remaining input values.", ParsableValueArgument.new_integer id, [])) := by
  refine ⟨?_, ?_, fun values => rfl, fun id rest => rfl, fun id rest => rfl, fun id rest => rfl,
    fun id rest => rfl, fun id rest => rfl, fun id => rfl⟩
  · intro v rest values
    cases hv : validate_integer v with
    | some err =>
      constructor
      · intro h
        exfalso
        simp [integerHandler, hv, Except.isOk, Except.toBool] at h
      · rintro ⟨hs, -⟩
        have h2 := (validate_integer_eq_none v).mpr (Or.inr hs)
        rw [hv] at h2
        exact Option.noConfusion h2
    | none =>
      cases hp : parse_i64 v with
      | ok n =>
        have hs : specIntFormat v = true := by
          rcases (validate_integer_eq_none v).mp hv with hdata | hs
          · have : parse_i64 v = .error "cannot parse integer from empty string" := by
              simp [parse_i64, hdata]
            rw [hp] at this
            exact Except.noConfusion this
          · exact hs
        simp [integerHandler, hv, hp, hs, Except.isOk, Except.toBool]
      | error e =>
        simp [integerHandler, hv, hp, Except.isOk, Except.toBool]
  · intro v rest values n hs hp
    have hv : validate_integer v = none := (validate_integer_eq_none v).mpr (Or.inr hs)
    simp [integerHandler, hv, hp]

/-- Closed instance of C5: the integer handler turns the token "123" into
the accumulated value 123, consuming exactly that token. -/
theorem c5_witness :
    (ParsableValueArgument.new_integer (.Short 'i')).handle ["123"] =
      (.ok (), { ParsableValueArgument.new_integer (.Short 'i') with values := [123] }, []) :=
  c5_integer_handler.2.2.2.1 (.Short 'i') []

/-- `add_value` preserves the result/arity agreement invariant, on success
and on failure alike. -/
theorem add_value_wf (a : Argument) (input : List String) (h : a.wf = true) :
    ((a.add_value input).2.1).wf = true := by
  cases ht : a.arg_type
  case Flag =>
    cases hr : a.arg_result
    · simp [Argument.add_value, Argument.wf, ht, hr]
    · simpa [Argument.add_value, Argument.wf, ht, hr] using h
  case Value =>
    cases hr : a.arg_result
    · cases input <;> simp [Argument.add_value, Argument.wf, ht, hr]
    · simpa [Argument.add_value, Argument.wf, ht, hr] using h
  case ValueList =>
    cases hr : a.arg_result
    · cases input <;> simp [Argument.add_value, Argument.wf, ht, hr]
    · rename_i r
      cases r
      case Flag => exact absurd h (by simp [Argument.wf, ht, hr])
      case Value => exact absurd h (by simp [Argument.wf, ht, hr])
      case ValueList =>
        cases input <;> simp [Argument.add_value, Argument.wf, ht, hr]

/-- The short-name owned arm preserves the invariant across the whole
argument vector. -/
theorem add_to_short_wf (c : Char) (input : List String) :
    ∀ (args : List Argument) (out : Except String Unit × List Argument × List String),
      (∀ a ∈ args, a.wf = true) → add_to_short args c input = some out →
      ∀ a ∈ out.2.1, a.wf = true := by
  intro args
  induction args with
  | nil => intro out _ hfind; exact Option.noConfusion hfind
  | cons a tl ih =>
    intro out h hfind
    by_cases hm : (a.short == some c) = true
    · rw [add_to_short, if_pos hm] at hfind
      obtain rfl := Option.some.inj hfind.symm
      intro x hx
      rcases List.mem_cons.mp hx with rfl | hx
      · exact add_value_wf a input (h a (List.mem_cons_self a tl))
      · exact h x (List.mem_cons_of_mem a hx)
    · rw [add_to_short, if_neg hm] at hfind
      cases hrec : add_to_short tl c input with
      | none => rw [hrec] at hfind; exact Option.noConfusion hfind
      | some out2 =>
        rw [hrec] at hfind
        obtain rfl := Option.some.inj hfind.symm
        intro x hx
        rcases List.mem_cons.mp hx with rfl | hx
        · exact h x (List.mem_cons_self x tl)
        · exact ih out2 (fun y hy => h y (List.mem_cons_of_mem a hy)) hrec x hx

/-- The long-name owned arm preserves the invariant across the whole
argument vector. -/
theorem add_to_long_wf (s : String) (input : List String) :
    ∀ (args : List Argument) (out : Except String Unit × List Argument × List String),
      (∀ a ∈ args, a.wf = true) → add_to_long args s input = some out →
      ∀ a ∈ out.2.1, a.wf = true := by
  intro args
  induction args with
  | nil => intro out _ hfind; exact Option.noConfusion hfind
  | cons a tl ih =>
    intro out h hfind
    by_cases hm : (a.long == some s) = true
    · rw [add_to_long, if_pos hm] at hfind
      obtain rfl := Option.some.inj hfind.symm
      intro x hx
      rcases List.mem_cons.mp hx with rfl | hx
      · exact add_value_wf a input (h a (List.mem_cons_self a tl))
      · exact h x (List.mem_cons_of_mem a hx)
    · rw [add_to_long, if_neg hm] at hfind
      cases hrec : add_to_long tl s input with
      | none => rw [hrec] at hfind; exact Option.noConfusion hfind
      | some out2 =>
        rw [hrec] at hfind
        obtain rfl := Option.some.inj hfind.symm
        intro x hx
        rcases List.mem_cons.mp hx with rfl | hx
        · exact h x (List.mem_cons_self x tl)
        · exact ih out2 (fun y hy => h y (List.mem_cons_of_mem a hy)) hrec x hx

/-- The dispatch loop preserves the invariant on every owned argument, for
any fuel, both on success and on abort. -/
theorem parseLoop_wf [HandleableArgument H] :
    ∀ (fuel : Nat) (l : ArgumentList H) (input : List String),
      (∀ a ∈ l.arguments, a.wf = true) →
      ∀ a ∈ (parseLoop fuel l input).2.arguments, a.wf = true := by
  intro fuel
  induction fuel with
  | zero => intro l input h; simpa [parseLoop] using h
  | succ fuel ih =>
    intro l input h
    cases input with
    | nil => simpa [parseLoop] using h
    | cons word rest =>
      cases hw : tokenClass word with
      | shortOpt c =>
        cases hfind : add_to_short l.arguments c rest with
        | some out =>
          obtain ⟨r, args1, rest1⟩ := out
          have hargs : ∀ a ∈ args1, a.wf = true := by
            have h2 := add_to_short_wf c rest l.arguments (r, args1, rest1) h hfind
            simpa using h2
          cases r with
          | ok u =>
            cases u
            simp only [parseLoop, hw, hfind]
            exact ih { l with arguments := args1 } rest1 (by simpa using hargs)
          | error e =>
            simp only [parseLoop, hw, hfind]
            simpa using hargs
        | none =>
          rcases hps : handle_parsable_short_name l.parsable_arguments c rest with ⟨r, ps1, rest1⟩
          cases r with
          | ok b =>
            cases b
            · simp only [parseLoop, hw, hfind, hps]
              simpa using h
            · simp only [parseLoop, hw, hfind, hps]
              exact ih { l with parsable_arguments := ps1 } rest1 (by simpa using h)
          | error e =>
            simp only [parseLoop, hw, hfind, hps]
            simpa using h
      | longOpt s =>
        cases hfind : add_to_long l.arguments s rest with
        | some out =>
          obtain ⟨r, args1, rest1⟩ := out
          have hargs : ∀ a ∈ args1, a.wf = true := by
            have h2 := add_to_long_wf s rest l.arguments (r, args1, rest1) h hfind
            simpa using h2
          cases r with
          | ok u =>
            cases u
            simp only [parseLoop, hw, hfind]
            exact ih { l with arguments := args1 } rest1 (by simpa using hargs)
          | error e =>
            simp only [parseLoop, hw, hfind]
            simpa using hargs
        | none =>
          rcases hps : handle_parsable_long_name l.parsable_arguments s rest with ⟨r, ps1, rest1⟩
          cases r with
          | ok b =>
            cases b
            · simp only [parseLoop, hw, hfind, hps]
              simpa using h
            · simp only [parseLoop, hw, hfind, hps]
              exact ih { l with parsable_arguments := ps1 } rest1 (by simpa using h)
          | error e =>
            simp only [parseLoop, hw, hfind, hps]
            simpa using h
      | dangling =>
        simp only [parseLoop, hw]
        exact ih (l.append_dangling_value word) rest (by simpa [ArgumentList.append_dangling_value] using h)

/-- C9: whenever an owned argument's result is present its variant agrees
with the argument's arity kind; this holds after construction and is
preserved by `add_value` and `parse_args`, so the internal "Wrong type of
result" branches of `get_value` and `get_values` and the "WTF" branch of
`add_value` are unreachable. -/
theorem c9_result_invariant :
    (∀ (s : Option Char) (lo : Option String) (t : ArgType) (a : Argument),
        Argument.new s lo t = .ok a → a.wf = true)
    ∧ (∀ (a : Argument) (input : List String), a.wf = true →
        ((a.add_value input).2.1).wf = true)
    ∧ (∀ (H : Type) [HandleableArgument H] (l : ArgumentList H) (input : List String),
        (∀ a ∈ l.arguments, a.wf = true) →
        ∀ a ∈ (l.parse_args input).2.arguments, a.wf = true)
    ∧ (∀ a : Argument, a.wf = true →
        a.get_value ≠ .error "Wrong type of result. Something really bad has happened")
    ∧ (∀ a : Argument, a.wf = true →
        a.get_values ≠ .error "Wrong type of result. Something really bad happened")
    ∧ (∀ (a : Argument) (input : List String), a.wf = true →
        (a.add_value input).1 ≠ .error "WTF") := by
  refine ⟨?_, add_value_wf, ?_, ?_, ?_, ?_⟩
  · intro s lo t a h
    cases s <;> cases lo
    · exact Except.noConfusion h
    all_goals
      have h2 := Except.ok.inj h
      subst h2
      rfl
  · intro Hty inst l input h
    exact parseLoop_wf input.length l input h
  · intro a h
    cases ht : a.arg_type
    case Value =>
      cases hr : a.arg_result
      · simp [Argument.get_value, ht, hr]
      · rename_i r
        cases r
        case Value => simp [Argument.get_value, ht, hr]
        case Flag => exact absurd h (by simp [Argument.wf, ht, hr])
        case ValueList => exact absurd h (by simp [Argument.wf, ht, hr])
    all_goals simp [Argument.get_value, ht]
  · intro a h
    cases ht : a.arg_type
    case ValueList =>
      cases hr : a.arg_result
      · simp [Argument.get_values, ht, hr]
      · rename_i r
        cases r
        case ValueList => simp [Argument.get_values, ht, hr]
        case Flag => exact absurd h (by simp [Argument.wf, ht, hr])
        case Value => exact absurd h (by simp [Argument.wf, ht, hr])
    all_goals simp [Argument.get_values, ht]
  · intro a input h
    cases ht : a.arg_type
    case Flag =>
      cases hr : a.arg_result <;> simp [Argument.add_value, ht, hr]
    case Value =>
      cases hr : a.arg_result
      · cases input <;> simp [Argument.add_value, ht, hr]
      · simp [Argument.add_value, ht, hr]
    case ValueList =>
      cases hr : a.arg_result
      · cases input <;> simp [Argument.add_value, ht, hr]
      · rename_i r
        cases r
        case Flag => exact absurd h (by simp [Argument.wf, ht, hr])
        case Value => exact absurd h (by simp [Argument.wf, ht, hr])
        case ValueList => cases input <;> simp [Argument.add_value, ht, hr]

/-- Closed instance of C9: adding a value to a fresh Value argument keeps
the result variant in agreement with the arity kind. -/
theorem c9_witness :
    (((Argument.mk (some 'p') none ArgType.Value none).add_value ["v"]).2.1).wf = true :=
  c9_result_invariant.2.1 (Argument.mk (some 'p') none ArgType.Value none) ["v"] rfl

/-- Counterexample to C10 as stated: `ParsableValueArgument::new` accepts
any closure over `&mut Vec<V>`, and a handler that itself rewrites the
accumulated sequence makes a successful `handle` call finish with a
sequence that is not the old sequence extended by one element: `cexArg`
starts with values `[0]`, its handler clears them, and after a successful
handle the values are `[5]`, so the length did not grow by one. -/
theorem c10_counterexample :
    (cexArg.handle ["t"]).1 = .ok ()
    ∧ ((cexArg.handle ["t"]).2.1).values.length ≠ cexArg.values.length + 1 :=
  ⟨rfl, by decide⟩

/-- C10 (amended): for every generic descriptor whose handler leaves the
accumulated sequence unchanged — as both default handlers do — a successful
`handle` appends exactly the produced element at the end, and a failed
`handle` leaves the sequence entirely unchanged; the default integer and
string handlers never touch the sequence they receive. -/
theorem c10_handle_append :
    (∀ (V : Type) (g : ParsableValueArgument V) (input : List String) (v : V),
        (g.handler input g.values).values = g.values →
        (g.handler input g.values).result = .ok v →
        g.handle input = (.ok (), { g with values := g.values ++ [v] },
          (g.handler input g.values).rest))
    ∧ (∀ (V : Type) (g : ParsableValueArgument V) (input : List String) (e : String),
        (g.handler input g.values).values = g.values →
        (g.handler input g.values).result = .error e →
        g.handle input = (.error e, g, (g.handler input g.values).rest))
    ∧ (∀ (input : List String) (values : List Int),
        (integerHandler input values).values = values)
    ∧ (∀ (input : List String) (values : List String),
        (stringHandler input values).values = values) := by
  refine ⟨?_, ?_, ?_, ?_⟩
  · intro V g input v hvals hres
    simp [ParsableValueArgument.handle, hres, hvals]
  · intro V g input e hvals hres
    simp [ParsableValueArgument.handle, hres, hvals]
  · intro input values
    cases input with
    | nil => rfl
    | cons v rest =>
      unfold integerHandler
      cases hval : validate_integer v with
      | some err => simp [hval]
      | none => cases hp : parse_i64 v <;> simp [hval, hp]
  · intro input values
    cases input <;> rfl

/-- Closed instance of the amended C10: the default string handler appends
exactly the consumed token. -/
theorem c10_witness :
    (ParsableValueArgument.new_string (.Short 's')).handle ["hi"] =
      (.ok (), { ParsableValueArgument.new_string (.Short 's') with values := ["hi"] },
        ((ParsableValueArgument.new_string (.Short 's')).handler ["hi"]
          (ParsableValueArgument.new_string (.Short 's')).values).rest) :=
  c10_handle_append.1 String (ParsableValueArgument.new_string (.Short 's')) ["hi"] "hi" rfl rfl

end Tap
